import Mathlib

set_option maxRecDepth 8000

/-
Verification of the student-data application (`studentData3.py`).

Text is modelled as `List Char`.  The two core components are shallowly
embedded from the source:

* `extract_student_info` (the profile extractor), including the regex
  searches, Python `str.split` / `str.strip` semantics and the
  `int(...)` calls that could in principle raise; the fallible parts are
  embedded in `Except` so that "never raises" is a provable statement.

* `answer_question` (the question answerer).  Floating point values
  produced by `numpy.mean` are modelled in exact rational arithmetic,
  and Python `set` iteration order (which is implementation defined) is
  modelled as first-occurrence order; both modelling choices are noted
  at the definitions they concern.
-/

namespace StudentData

/-- Python substring test (`needle in hay`) on character lists. -/
def containsSub (needle : List Char) : List Char → Bool
  | [] => needle.isEmpty
  | c :: rest => needle.isPrefixOf (c :: rest) || containsSub needle rest

/-- The characters stripped by Python `str.strip()` (ASCII whitespace). -/
def isPyWs (c : Char) : Bool :=
  c == ' ' || c == '\t' || c == '\n' || c == '\r' || c == '\x0b' || c == '\x0c'

/-- Python `str.strip(chars)`: drop characters satisfying `p` from both ends. -/
def pyStrip (p : Char → Bool) (l : List Char) : List Char :=
  ((l.dropWhile p).reverse.dropWhile p).reverse

/-- Python `str.strip()` (no argument): strip whitespace from both ends. -/
def pyStripWs (l : List Char) : List Char := pyStrip isPyWs l

/-- The character set of Python `str.strip("* ")`. -/
def isStarSpace (c : Char) : Bool := c == '*' || c == ' '

/-- The bullet-stripping applied to each section line in the source:
`item.strip("* ").strip()`. -/
def bulletStrip (l : List Char) : List Char := pyStripWs (pyStrip isStarSpace l)

/-- The stripping predicate as the specification words it: remove `*`
characters and whitespace from both ends of each line.  Stated for
comparison with `bulletStrip`, the operation the source performs. -/
def starOrWs (c : Char) : Bool := c == '*' || isPyWs c

/-- Python `str.lower()` (the triggers and markers are ASCII). -/
def pyLower (l : List Char) : List Char := l.map Char.toLower

/-- Fuelled worker for Python `str.split(sep)` (`sep` nonempty): scan left to
right; at each non-overlapping occurrence of `sep` a chunk ends.  The fuel is
always instantiated with the length of the list, which suffices, so the
`0, l` equation is never reached on the call paths below. -/
def pySplitF (sep : List Char) : Nat → List Char → List (List Char)
  | _, [] => [[]]
  | 0, l => [l]
  | Nat.succ fuel, c :: rest =>
    if sep ≠ [] ∧ sep.isPrefixOf (c :: rest) then
      [] :: pySplitF sep fuel (List.drop sep.length (c :: rest))
    else
      match pySplitF sep fuel rest with
      | [] => [[c]]
      | h :: t => (c :: h) :: t

/-- Python `str.split(sep)` for a nonempty separator. -/
def pySplit (sep l : List Char) : List (List Char) := pySplitF sep l.length l

/-- `re.search` for the patterns used by `extract_field`: a literal `lit`
followed by a single greedy capture group of characters satisfying `good`
(`(.+)` or `(\d+)`).  Returns the captured group of the leftmost match. -/
def reSearchCap (lit : List Char) (good : Char → Bool) : List Char → Option (List Char)
  | [] => none
  | c :: rest =>
    let cap := List.takeWhile good (List.drop lit.length (c :: rest))
    if lit.isPrefixOf (c :: rest) && !cap.isEmpty then some cap
    else reSearchCap lit good rest

/-- `extract_field(pattern, text, default)` from the source: the stripped
first capture group, or the (unstripped) default when there is no match. -/
def extract_field (lit : List Char) (good : Char → Bool) (dflt : List Char)
    (text : List Char) : List Char :=
  match reSearchCap lit good text with
  | some cap => pyStripWs cap
  | none => dflt

/-- Numeric value of an ASCII digit. -/
def digitVal (c : Char) : Nat := c.toNat - 48

/-- Parser loop for the digit part of Python `int(str)`: digits with single
underscores allowed between digits. -/
def digitsRest : Nat → List Char → Option Nat
  | acc, [] => some acc
  | acc, c :: rest =>
    if c.isDigit then digitsRest (acc * 10 + digitVal c) rest
    else if c == '_' then
      match rest with
      | [] => none
      | d :: rest2 =>
        if d.isDigit then digitsRest (acc * 10 + digitVal d) rest2 else none
    else none

/-- First digit of the digit part of Python `int(str)`. -/
def digitsStart : List Char → Option Nat
  | [] => none
  | c :: rest => if c.isDigit then digitsRest (digitVal c) rest else none

/-- Python `int(str)`: optional surrounding whitespace, optional sign,
nonempty digit run (underscores permitted between digits); `none` models the
`ValueError` raised on any other input. -/
def pyInt (l : List Char) : Option Int :=
  match pyStripWs l with
  | [] => none
  | c :: rest =>
    if c == '+' then (digitsStart rest).map (fun n => (n : Int))
    else if c == '-' then (digitsStart rest).map (fun n => -(n : Int))
    else (digitsStart (c :: rest)).map (fun n => (n : Int))

/-- `", ".join(items)`. -/
def pyJoin (items : List (List Char)) : List Char :=
  List.intercalate [',', ' '] items

/-- Literal of the regex `\*\*Name:\*\* (.+)` before the capture group. -/
def nameLit : List Char := "**Name:** ".toList

/-- Literal of the regex `\*\*Age:\*\* (\d+)` before the capture group. -/
def ageLit : List Char := "**Age:** ".toList

/-- Literal of the regex `\*\*Marks:\*\* (\d+)` before the capture group. -/
def marksLit : List Char := "**Marks:** ".toList

/-- Literal of the regex `\*\*Department:\*\* (.+)` before the capture group. -/
def deptLit : List Char := "**Department:** ".toList

/-- The `**Hobbies:**` marker. -/
def hobbiesMarker : List Char := "**Hobbies:**".toList

/-- The `**Sport:**` marker. -/
def sportMarker : List Char := "**Sport:**".toList

/-- `.` of the patterns `(.+)`: any character except a newline. -/
def notNl (c : Char) : Bool := c != '\n'

/-- The result record of `extract_student_info`. -/
structure StudentInfo where
  name : List Char
  age : Int
  marks : Int
  department : List Char
  hobbies : List Char
  sport : List Char
deriving DecidableEq, Repr

/-- The `name` field: `extract_field(r"\*\*Name:\*\* (.+)", text, "Unknown")`. -/
def nameVal (text : List Char) : List Char :=
  extract_field nameLit notNl "Unknown".toList text

/-- The text handed to `int` for `age`:
`extract_field(r"\*\*Age:\*\* (\d+)", text, "0")`. -/
def ageTxt (text : List Char) : List Char :=
  extract_field ageLit Char.isDigit "0".toList text

/-- The text handed to `int` for `marks`:
`extract_field(r"\*\*Marks:\*\* (\d+)", text, "0")`. -/
def marksTxt (text : List Char) : List Char :=
  extract_field marksLit Char.isDigit "0".toList text

/-- The `department` field. -/
def deptVal (text : List Char) : List Char :=
  extract_field deptLit notNl "Unknown".toList text

/-- One section turned into items:
`[item.strip("* ").strip() for item in section.split("\n") if item.strip()]`. -/
def sectionItems (sec : List Char) : List (List Char) :=
  ((pySplit ['\n'] sec).filter (fun it => !(pyStripWs it).isEmpty)).map bulletStrip

/-- The hobby item list:
`content_text.split("**Hobbies:**")[1].split("**Sport:**")[0]`, turned into
items; the `IndexError` of `[1]` (caught by the source) yields `[]`.  The
inner `[0]` cannot fail since `split` never returns an empty list. -/
def hobbiesVal (text : List Char) : List (List Char) :=
  match (pySplit hobbiesMarker text)[1]? with
  | none => []
  | some sec =>
    match pySplit sportMarker sec with
    | [] => []
    | h :: _ => sectionItems h

/-- The sport item list: `content_text.split("**Sport:**")[1]` turned into
items; a missing marker (`IndexError`, caught) yields `[]`. -/
def sportVal (text : List Char) : List (List Char) :=
  match (pySplit sportMarker text)[1]? with
  | none => []
  | some sec => sectionItems sec

/-- `extract_student_info`, with the two `int(...)` calls — the only
statements of the function that are outside any `try` block and could raise —
surfaced in `Except`.  `.error` models an uncaught `ValueError`. -/
def extractE (text : List Char) : Except (List Char) StudentInfo :=
  match pyInt (ageTxt text), pyInt (marksTxt text) with
  | some a, some m =>
    .ok { name := nameVal text, age := a, marks := m, department := deptVal text,
          hobbies := pyJoin (hobbiesVal text), sport := pyJoin (sportVal text) }
  | _, _ => .error "ValueError".toList

/-- `extract_student_info` as a total function; the error branch is dead code
(`extractE` always succeeds, which is proved below). -/
def extract_student_info (text : List Char) : StudentInfo :=
  match extractE text with
  | .ok info => info
  | .error _ =>
    { name := "Unknown".toList, age := 0, marks := 0,
      department := "Unknown".toList, hobbies := [], sport := [] }

/-- One row of the `student` table, as read by `fetch_records`; the numeric
indices `record[1] … record[6]` of the source correspond to the fields
`name … sport`. -/
structure Record where
  id : Int
  name : List Char
  age : Int
  marks : Int
  department : List Char
  hobby : List Char
  sport : List Char
deriving DecidableEq, Repr

/-- The tagged result of `answer_question`: a sentence, a list of strings,
a list of integers, or the marks-distribution mapping (an insertion-ordered
association list, like a Python `dict`). -/
inductive Answer where
  | sentence : List Char → Answer
  | strList : List (List Char) → Answer
  | intList : List Int → Answer
  | mapping : List (Int × Nat) → Answer
deriving DecidableEq, Repr

deriving instance DecidableEq for Except

/-- `numpy.mean` of a list of integers.  Modelling note: the source computes
this in 64-bit floating point; it is embedded in exact rational arithmetic
(the empty list, for which numpy returns `nan`, is special-cased at the one
call site that formats the mean). -/
def npMean (l : List Int) : ℚ := (l.sum : ℚ) / (l.length : ℚ)

/-- Round a rational to the nearest integer, ties to even — the rounding
applied by Python `format(x, ".2f")` to `x * 100`. -/
def rhe (y : ℚ) : Int :=
  if y - ⌊y⌋ < 1 / 2 then ⌊y⌋
  else if (1 : ℚ) / 2 < y - ⌊y⌋ then ⌊y⌋ + 1
  else if ⌊y⌋ % 2 = 0 then ⌊y⌋ else ⌊y⌋ + 1

/-- Decimal digits of a natural number. -/
def natDigits (n : Nat) : List Char := Nat.toDigits 10 n

/-- Print a nonnegative number of hundredths as `d.dd`. -/
def fmtHundredths (m : Nat) : List Char :=
  natDigits (m / 100) ++
    '.' :: (if m % 100 < 10 then '0' :: natDigits (m % 100) else natDigits (m % 100))

/-- Python `f"{x:.2f}"`: sign of `x`, then its magnitude rounded to a whole
number of hundredths (ties to even) and printed with two decimals. -/
def formatQ2 (x : ℚ) : List Char :=
  (if x < 0 then ['-'] else []) ++ fmtHundredths (rhe ((if x < 0 then -x else x) * 100)).toNat

/-- `f"{np.mean(l):.2f}"`: numpy yields `nan` on an empty list (no error). -/
def npMeanFmt (l : List Int) : List Char :=
  if l.isEmpty then "nan".toList else formatQ2 (npMean l)

/-- Decimal rendering of a Python integer. -/
def intChars (n : Int) : List Char :=
  if n < 0 then '-' :: natDigits n.natAbs else natDigits n.natAbs

/-- Python `max(iterable)` for integers (first element of maximal value). -/
def pyMaxInt : List Int → Option Int
  | [] => none
  | x :: xs => some (xs.foldl (fun b y => if b < y then y else b) x)

/-- Worker for `max(iterable, key=f)`: keep the current best, replacing it
only on a strictly larger key, so the first element of maximal key wins. -/
def pyMaxByGo (f : α → ℚ) : α → List α → α
  | b, [] => b
  | b, y :: rest => pyMaxByGo f (if f b < f y then y else b) rest

/-- Python `max(iterable, key=f)`; `none` models the `ValueError` on an
empty iterable. -/
def pyMaxBy (f : α → ℚ) : List α → Option α
  | [] => none
  | x :: rest => some (pyMaxByGo f x rest)

/-- First-occurrence deduplication; worker carrying already-seen elements. -/
def firstDedupAux [DecidableEq α] (seen : List α) : List α → List α
  | [] => []
  | x :: rest =>
    if x ∈ seen then firstDedupAux seen rest
    else x :: firstDedupAux (x :: seen) rest

/-- `list(set(l))` of the source.  Modelling note: iteration order of a
Python `set` is implementation defined (hash order); it is modelled here as
first-occurrence order.  Every claim proved about it only uses properties
that hold for any enumeration of the underlying set. -/
def firstDedup [DecidableEq α] (l : List α) : List α := firstDedupAux [] l

/-- `d[k] = d.get(k, 0) + 1` on an insertion-ordered association list. -/
def updInc : List (Int × Nat) → Int → List (Int × Nat)
  | [], k => [(k, 1)]
  | (k2, v) :: rest, k =>
    if k = k2 then (k2, v + 1) :: rest else (k2, v) :: updInc rest k

/-- Lookup in an association list (Python `d.get(k)`). -/
def alLookup (k : Int) : List (Int × Nat) → Option Nat
  | [] => none
  | (k2, v) :: rest => if k = k2 then some v else alLookup k rest

/-- The token list
`[hobby.strip() for record in records for hobby in record[5].split(",")]`
shared by the "common hobbies" and "all student hobbies" branches. -/
def allHobbyTokens (records : List Record) : List (List Char) :=
  records.flatMap (fun rec => (pySplit [','] rec.hobby).map pyStripWs)

/-- `[sport.strip() for record in records for sport in record[6].split(",")]`. -/
def allSportTokens (records : List Record) : List (List Char) :=
  records.flatMap (fun rec => (pySplit [','] rec.sport).map pyStripWs)

/-- The candidate collection `set(all_hobbies)` over which the
"common hobbies" branch maximises (see `firstDedup` for the order note). -/
def commonHobbyCandidates (records : List Record) : List (List Char) :=
  firstDedup (allHobbyTokens records)

/-- The per-department marks list: the value `marks_by_department[d]` after
the build loop (records are scanned in order, appending `record[3]`). -/
def deptMarks (d : List Char) (records : List Record) : List Int :=
  (records.filter (fun rec => rec.department == d)).map Record.marks

/-- The `ValueError` raised by `max` on an empty sequence. -/
def valueError : List Char := "ValueError".toList

/-- Branch: "average age". -/
def hAvgAge (records : List Record) : Except (List Char) Answer :=
  .ok (.sentence ("The average age of the students is ".toList ++
    npMeanFmt (records.map Record.age) ++ " years.".toList))

/-- Branch: "highest marks" (raises on an empty record list). -/
def hHighestMarks (records : List Record) : Except (List Char) Answer :=
  match pyMaxInt (records.map Record.marks) with
  | none => .error valueError
  | some m => .ok (.sentence ("The highest marks achieved is ".toList ++ intChars m ++ ['.']))

/-- Branch: "students in the computer science department". -/
def hCsCount (records : List Record) : Except (List Char) Answer :=
  .ok (.sentence ("There are ".toList ++
    natDigits (records.filter
      (fun rec => containsSub "computer science".toList (pyLower rec.department))).length ++
    " students in the Computer Science department.".toList))

/-- Branch: "common hobbies": `max(set(all_hobbies), key=all_hobbies.count)`
(raises when the set is empty, i.e. when there are no records). -/
def hCommonHobbies (records : List Record) : Except (List Char) Answer :=
  match pyMaxBy (fun t => ((allHobbyTokens records).count t : ℚ))
      (commonHobbyCandidates records) with
  | none => .error valueError
  | some t => .ok (.sentence ("The most common hobby among students is ".toList ++ t ++ ['.']))

/-- Branch: "distribution of marks": the dict build loop. -/
def hMarkDistribution (records : List Record) : Except (List Char) Answer :=
  .ok (.mapping (List.foldl updInc [] (records.map Record.marks)))

/-- Branch: "highest average marks":
`max(marks_by_department, key=lambda x: np.mean(marks_by_department[x]))`
over the department keys (raises when there are no records). -/
def hHighestAvgMarks (records : List Record) : Except (List Char) Answer :=
  match pyMaxBy (fun d => npMean (deptMarks d records))
      (firstDedup (records.map Record.department)) with
  | none => .error valueError
  | some d =>
    .ok (.sentence ("The department with the highest average marks is ".toList ++ d ++ ['.']))

/-- Branch: "all student names". -/
def hAllNames (records : List Record) : Except (List Char) Answer :=
  .ok (.strList (firstDedup (records.map Record.name)))

/-- Branch: "all student ages". -/
def hAllAges (records : List Record) : Except (List Char) Answer :=
  .ok (.intList (firstDedup (records.map Record.age)))

/-- Branch: "all student hobbies". -/
def hAllHobbies (records : List Record) : Except (List Char) Answer :=
  .ok (.strList (firstDedup (allHobbyTokens records)))

/-- Branch: "all student departments". -/
def hAllDepartments (records : List Record) : Except (List Char) Answer :=
  .ok (.strList (firstDedup (records.map Record.department)))

/-- Branch: "all student sports". -/
def hAllSports (records : List Record) : Except (List Char) Answer :=
  .ok (.strList (firstDedup (allSportTokens records)))

/-- The eleven trigger substrings, in source order. -/
def trigAvgAge : List Char := "average age".toList

def trigHighestMarks : List Char := "highest marks".toList

def trigCsCount : List Char := "students in the computer science department".toList

def trigCommonHobbies : List Char := "common hobbies".toList

def trigMarkDistribution : List Char := "distribution of marks".toList

def trigHighestAvgMarks : List Char := "highest average marks".toList

def trigAllNames : List Char := "all student names".toList

def trigAllAges : List Char := "all student ages".toList

def trigAllHobbies : List Char := "all student hobbies".toList

def trigAllDepartments : List Char := "all student departments".toList

def trigAllSports : List Char := "all student sports".toList

/-- The sentinel `"Sorry, I couldn't understand the question."` (the
apostrophe is spelled via its code point). -/
def notUnderstood : List Char :=
  "Sorry, I couldn".toList ++ [Char.ofNat 39] ++ "t understand the question.".toList

/-- `answer_question(question, records)`: the `if/elif` trigger chain of the
source; `.error` marks the branches where Python `max` raises on empty
input. -/
def answer_question (question : List Char) (records : List Record) :
    Except (List Char) Answer :=
  if containsSub trigAvgAge (pyLower question) = true then hAvgAge records
  else if containsSub trigHighestMarks (pyLower question) = true then hHighestMarks records
  else if containsSub trigCsCount (pyLower question) = true then hCsCount records
  else if containsSub trigCommonHobbies (pyLower question) = true then hCommonHobbies records
  else if containsSub trigMarkDistribution (pyLower question) = true then
    hMarkDistribution records
  else if containsSub trigHighestAvgMarks (pyLower question) = true then
    hHighestAvgMarks records
  else if containsSub trigAllNames (pyLower question) = true then hAllNames records
  else if containsSub trigAllAges (pyLower question) = true then hAllAges records
  else if containsSub trigAllHobbies (pyLower question) = true then hAllHobbies records
  else if containsSub trigAllDepartments (pyLower question) = true then
    hAllDepartments records
  else if containsSub trigAllSports (pyLower question) = true then hAllSports records
  else .ok (.sentence notUnderstood)

/-- The ordered trigger/branch table (used to state the dispatch policy). -/
def triggerTable : List (List Char × (List Record → Except (List Char) Answer)) :=
  [(trigAvgAge, hAvgAge), (trigHighestMarks, hHighestMarks), (trigCsCount, hCsCount),
   (trigCommonHobbies, hCommonHobbies), (trigMarkDistribution, hMarkDistribution),
   (trigHighestAvgMarks, hHighestAvgMarks), (trigAllNames, hAllNames),
   (trigAllAges, hAllAges), (trigAllHobbies, hAllHobbies),
   (trigAllDepartments, hAllDepartments), (trigAllSports, hAllSports)]

/-- The ordered trigger list. -/
def triggerStrings : List (List Char) := triggerTable.map Prod.fst

/-- Dispatch as the specification words it: the lowercased question is
matched against the fixed ordered trigger list, the first trigger whose
substring occurs wins, and with no match the sentinel is returned. -/
def dispatchFirst (question : List Char) (records : List Record) :
    Except (List Char) Answer :=
  match triggerTable.find? (fun p => containsSub p.1 (pyLower question)) with
  | some p => p.2 records
  | none => .ok (.sentence notUnderstood)

/-- `answer_question` in state-passing form: the record list is threaded
through the call and returned alongside the answer.  The source never
assigns to or mutates `records` (it only reads `record[i]` inside
comprehensions), so every branch returns the list it received. -/
def answer_question_run (question : List Char) (records : List Record) :
    Except (List Char) Answer × List Record :=
  if containsSub trigAvgAge (pyLower question) = true then (hAvgAge records, records)
  else if containsSub trigHighestMarks (pyLower question) = true then
    (hHighestMarks records, records)
  else if containsSub trigCsCount (pyLower question) = true then (hCsCount records, records)
  else if containsSub trigCommonHobbies (pyLower question) = true then
    (hCommonHobbies records, records)
  else if containsSub trigMarkDistribution (pyLower question) = true then
    (hMarkDistribution records, records)
  else if containsSub trigHighestAvgMarks (pyLower question) = true then
    (hHighestAvgMarks records, records)
  else if containsSub trigAllNames (pyLower question) = true then (hAllNames records, records)
  else if containsSub trigAllAges (pyLower question) = true then (hAllAges records, records)
  else if containsSub trigAllHobbies (pyLower question) = true then
    (hAllHobbies records, records)
  else if containsSub trigAllDepartments (pyLower question) = true then
    (hAllDepartments records, records)
  else if containsSub trigAllSports (pyLower question) = true then
    (hAllSports records, records)
  else (.ok (.sentence notUnderstood), records)

/-! ### Helper lemmas -/

theorem containsSub_cons_of (needle : List Char) (c : Char) (rest : List Char)
    (h : containsSub needle rest = true) : containsSub needle (c :: rest) = true := by
  simp [containsSub, h]

theorem isPrefixOf_append_self (m b : List Char) : m.isPrefixOf (m ++ b) = true := by
  rw [List.isPrefixOf_iff_prefix]
  exact List.prefix_append m b

theorem containsSub_self_append (m b : List Char) : containsSub m (m ++ b) = true := by
  cases hm : m ++ b with
  | nil =>
    have : m = [] := by
      cases m with
      | nil => rfl
      | cons c t => simp at hm
    simp [containsSub, this]
  | cons c t =>
    rw [← hm]
    cases m with
    | nil => simp [hm, containsSub]
    | cons d s =>
      have : (d :: s) ++ b = d :: (s ++ b) := rfl
      rw [this]
      simp [containsSub, isPrefixOf_append_self (d :: s) b]

theorem containsSub_append_middle (a m b : List Char) :
    containsSub m (a ++ m ++ b) = true := by
  induction a with
  | nil => simpa using containsSub_self_append m b
  | cons c a ih =>
    have : (c :: a) ++ m ++ b = c :: (a ++ m ++ b) := rfl
    rw [this]
    exact containsSub_cons_of _ _ _ ih

theorem dropWhile_eq_self_of_head (p : Char → Bool) (l : List Char)
    (h : ∀ c, l.head? = some c → p c = false) : l.dropWhile p = l := by
  cases l with
  | nil => rfl
  | cons a t => rw [List.dropWhile_cons, if_neg]; simp [h a rfl]

theorem head_dropWhile_false (p : Char → Bool) (l : List Char) (c : Char)
    (h : (l.dropWhile p).head? = some c) : p c = false := by
  induction l with
  | nil => simp [List.dropWhile] at h
  | cons a t ih =>
    rw [List.dropWhile_cons] at h
    by_cases hp : p a = true
    · exact ih (by simpa [hp] using h)
    · simp only [hp, if_neg] at h
      simp only [Bool.false_eq_true, if_false, List.head?_cons, Option.some.injEq] at h
      subst h
      simpa using hp

theorem getLast_dropWhile_eq (p : Char → Bool) (l : List Char)
    (h : l.dropWhile p ≠ []) : (l.dropWhile p).getLast? = l.getLast? := by
  induction l with
  | nil => simp [List.dropWhile] at h
  | cons a t ih =>
    rw [List.dropWhile_cons]
    by_cases hp : p a = true
    · rw [List.dropWhile_cons, if_pos hp] at h
      have ht : t ≠ [] := by
        intro he
        subst he
        simp [List.dropWhile] at h
      rw [if_pos hp, ih h]
      cases t with
      | nil => exact absurd rfl ht
      | cons b s => simp
    · rw [if_neg hp]

theorem pyStrip_head_false (p : Char → Bool) (l : List Char) (c : Char)
    (h : (pyStrip p l).head? = some c) : p c = false := by
  unfold pyStrip at h
  rw [List.head?_reverse] at h
  have hne : (l.dropWhile p).reverse.dropWhile p ≠ [] := by
    intro he
    rw [he] at h
    simp at h
  rw [getLast_dropWhile_eq p _ hne, List.getLast?_reverse] at h
  exact head_dropWhile_false p _ c h

theorem pyStrip_getLast_false (p : Char → Bool) (l : List Char) (c : Char)
    (h : (pyStrip p l).getLast? = some c) : p c = false := by
  unfold pyStrip at h
  rw [List.getLast?_reverse] at h
  exact head_dropWhile_false p _ c h

theorem pyStripWs_pyStrip (p : Char → Bool) (hsub : ∀ c, isPyWs c = true → p c = true)
    (l : List Char) : pyStripWs (pyStrip p l) = pyStrip p l := by
  have hws : ∀ c, p c = false → isPyWs c = false := by
    intro c hc
    cases hw : isPyWs c with
    | false => rfl
    | true => rw [hsub c hw] at hc; exact absurd hc (by simp)
  have h1 : (pyStrip p l).dropWhile isPyWs = pyStrip p l :=
    dropWhile_eq_self_of_head _ _ (fun c hc => hws c (pyStrip_head_false p l c hc))
  have h2 : (pyStrip p l).reverse.dropWhile isPyWs = (pyStrip p l).reverse := by
    apply dropWhile_eq_self_of_head
    intro c hc
    rw [List.head?_reverse] at hc
    exact hws c (pyStrip_getLast_false p l c hc)
  show ((((pyStrip p l).dropWhile isPyWs).reverse).dropWhile isPyWs).reverse = pyStrip p l
  rw [h1, h2, List.reverse_reverse]

theorem dropWhile_congr_mem (p q : Char → Bool) (l : List Char)
    (h : ∀ c ∈ l, p c = q c) : l.dropWhile p = l.dropWhile q := by
  induction l with
  | nil => rfl
  | cons a t ih =>
    rw [List.dropWhile_cons, List.dropWhile_cons, h a (by simp),
      ih (fun c hc => h c (by simp [hc]))]

theorem pyStrip_congr_mem (p q : Char → Bool) (l : List Char)
    (h : ∀ c ∈ l, p c = q c) : pyStrip p l = pyStrip q l := by
  unfold pyStrip
  rw [dropWhile_congr_mem p q l h]
  rw [dropWhile_congr_mem p q (l.dropWhile q).reverse]
  intro c hc
  exact h c ((List.dropWhile_sublist q).subset (List.mem_reverse.mp hc))

theorem dropWhile_eq_self_of_all (p : Char → Bool) (l : List Char)
    (h : ∀ c ∈ l, p c = false) : l.dropWhile p = l :=
  dropWhile_eq_self_of_head p l (fun c hc => h c (by cases l <;> simp_all))

theorem pyStrip_eq_self_of_all (p : Char → Bool) (l : List Char)
    (h : ∀ c ∈ l, p c = false) : pyStrip p l = l := by
  unfold pyStrip
  rw [dropWhile_eq_self_of_all p l h,
    dropWhile_eq_self_of_all p l.reverse (fun c hc => h c (List.mem_reverse.mp hc)),
    List.reverse_reverse]

theorem pySplitF_ne_nil (sep : List Char) (fuel : Nat) (l : List Char) :
    pySplitF sep fuel l ≠ [] := by
  induction fuel generalizing l with
  | zero => cases l <;> simp [pySplitF]
  | succ fuel ih =>
    cases l with
    | nil => simp [pySplitF]
    | cons c rest =>
      rw [pySplitF]
      split
      · simp
      · cases h : pySplitF sep fuel rest with
        | nil => simp
        | cons a b => simp

theorem pySplitF_no_occur (sep : List Char) (fuel : Nat) (l : List Char)
    (h : containsSub sep l = false) : pySplitF sep fuel l = [l] := by
  induction fuel generalizing l with
  | zero => cases l <;> simp [pySplitF]
  | succ fuel ih =>
    cases l with
    | nil => simp [pySplitF]
    | cons c rest =>
      rw [containsSub] at h
      rw [Bool.or_eq_false_iff] at h
      rw [pySplitF, if_neg (by simp [h.1]), ih rest h.2]

theorem pySplit_no_occur (sep l : List Char) (h : containsSub sep l = false) :
    pySplit sep l = [l] := pySplitF_no_occur sep l.length l h

theorem reSearchCap_some (lit : List Char) (good : Char → Bool) (text cap : List Char)
    (h : reSearchCap lit good text = some cap) :
    cap ≠ [] ∧ ∀ c ∈ cap, good c = true := by
  induction text with
  | nil => simp [reSearchCap] at h
  | cons c rest ih =>
    rw [reSearchCap] at h
    split at h
    · rename_i hcond
      rw [Option.some.injEq] at h
      subst h
      rw [Bool.and_eq_true] at hcond
      constructor
      · have := hcond.2
        simp only [Bool.not_eq_true'] at this
        simpa [List.isEmpty_iff] using this
      · intro x hx
        exact List.mem_takeWhile_imp hx
    · exact ih h

theorem digit_not_ws (c : Char) (h : c.isDigit = true) : isPyWs c = false := by
  cases hw : isPyWs c with
  | false => rfl
  | true =>
    exfalso
    simp only [isPyWs, Bool.or_eq_true, beq_iff_eq] at hw
    rcases hw with ((((h1 | h1) | h1) | h1) | h1) | h1 <;> subst h1 <;>
      exact absurd h (by decide)

theorem digitsRest_all (rest : List Char) (acc : Nat)
    (h : ∀ c ∈ rest, c.isDigit = true) : ∃ n, digitsRest acc rest = some n := by
  induction rest generalizing acc with
  | nil => exact ⟨acc, rfl⟩
  | cons c t ih =>
    have hc : c.isDigit = true := h c (by simp)
    have hstep : digitsRest acc (c :: t) = digitsRest (acc * 10 + digitVal c) t := by
      conv_lhs => rw [digitsRest.eq_def]
      simp [hc]
    rw [hstep]
    exact ih _ (fun x hx => h x (by simp [hx]))

theorem pyInt_of_digits (l : List Char) (hne : l ≠ [])
    (h : ∀ c ∈ l, c.isDigit = true) : ∃ n, pyInt l = some n := by
  have hstrip : pyStripWs l = l :=
    pyStrip_eq_self_of_all isPyWs l (fun c hc => digit_not_ws c (h c hc))
  cases l with
  | nil => exact absurd rfl hne
  | cons c t =>
    have hc : c.isDigit = true := h c (by simp)
    have hcp : (c == '+') = false := by
      cases he : c == '+' with
      | false => rfl
      | true =>
        rw [beq_iff_eq] at he
        subst he
        exact absurd hc (by decide)
    have hcm : (c == '-') = false := by
      cases he : c == '-' with
      | false => rfl
      | true =>
        rw [beq_iff_eq] at he
        subst he
        exact absurd hc (by decide)
    unfold pyInt
    rw [hstrip]
    simp only [hcp, hcm, Bool.false_eq_true, if_false]
    simp only [digitsStart]
    rw [if_pos hc]
    obtain ⟨n, hn⟩ := digitsRest_all t (digitVal c) (fun x hx => h x (by simp [hx]))
    exact ⟨(n : Int), by rw [hn]; rfl⟩

theorem digitsField_int (lit text : List Char) :
    ∃ n, pyInt (extract_field lit Char.isDigit "0".toList text) = some n := by
  cases h : reSearchCap lit Char.isDigit text with
  | none =>
    refine ⟨0, ?_⟩
    simp only [extract_field, h]
    decide
  | some cap =>
    obtain ⟨hne, hdig⟩ := reSearchCap_some lit Char.isDigit text cap h
    have hstrip : pyStripWs cap = cap :=
      pyStrip_eq_self_of_all _ _ (fun c hc => digit_not_ws c (hdig c hc))
    simp only [extract_field, h]
    rw [hstrip]
    exact pyInt_of_digits cap hne hdig

theorem extractE_ok (text : List Char) :
    extractE text = Except.ok (extract_student_info text) := by
  obtain ⟨a, ha⟩ : ∃ n, pyInt (ageTxt text) = some n := digitsField_int ageLit text
  obtain ⟨m, hm⟩ : ∃ n, pyInt (marksTxt text) = some n := digitsField_int marksLit text
  simp [extract_student_info, extractE, ha, hm]

theorem extract_age_of (text : List Char) (a : Int)
    (ha : pyInt (ageTxt text) = some a) : (extract_student_info text).age = a := by
  obtain ⟨m, hm⟩ : ∃ n, pyInt (marksTxt text) = some n := digitsField_int marksLit text
  simp [extract_student_info, extractE, ha, hm]

theorem extract_marks_of (text : List Char) (m : Int)
    (hm : pyInt (marksTxt text) = some m) : (extract_student_info text).marks = m := by
  obtain ⟨a, ha⟩ : ∃ n, pyInt (ageTxt text) = some n := digitsField_int ageLit text
  simp [extract_student_info, extractE, ha, hm]

theorem extract_name_eq (text : List Char) :
    (extract_student_info text).name = nameVal text := by
  obtain ⟨a, ha⟩ : ∃ n, pyInt (ageTxt text) = some n := digitsField_int ageLit text
  obtain ⟨m, hm⟩ : ∃ n, pyInt (marksTxt text) = some n := digitsField_int marksLit text
  simp [extract_student_info, extractE, ha, hm]

theorem extract_dept_eq (text : List Char) :
    (extract_student_info text).department = deptVal text := by
  obtain ⟨a, ha⟩ : ∃ n, pyInt (ageTxt text) = some n := digitsField_int ageLit text
  obtain ⟨m, hm⟩ : ∃ n, pyInt (marksTxt text) = some n := digitsField_int marksLit text
  simp [extract_student_info, extractE, ha, hm]

theorem extract_hobbies_eq (text : List Char) :
    (extract_student_info text).hobbies = pyJoin (hobbiesVal text) := by
  obtain ⟨a, ha⟩ : ∃ n, pyInt (ageTxt text) = some n := digitsField_int ageLit text
  obtain ⟨m, hm⟩ : ∃ n, pyInt (marksTxt text) = some n := digitsField_int marksLit text
  simp [extract_student_info, extractE, ha, hm]

theorem hobbiesVal_no_marker (text : List Char)
    (h : containsSub hobbiesMarker text = false) : hobbiesVal text = [] := by
  unfold hobbiesVal
  rw [pySplit_no_occur _ _ h]
  rfl

theorem mem_firstDedupAux {α : Type} [DecidableEq α] (seen l : List α) (x : α) :
    x ∈ firstDedupAux seen l ↔ x ∈ l ∧ x ∉ seen := by
  induction l generalizing seen with
  | nil => simp [firstDedupAux]
  | cons a t ih =>
    by_cases ha : a ∈ seen
    · rw [firstDedupAux, if_pos ha, ih]
      constructor
      · rintro ⟨hx, hs⟩
        exact ⟨List.mem_cons_of_mem a hx, hs⟩
      · rintro ⟨hx, hs⟩
        rcases List.mem_cons.mp hx with rfl | hx
        · exact absurd ha hs
        · exact ⟨hx, hs⟩
    · rw [firstDedupAux, if_neg ha]
      constructor
      · intro hx
        rcases List.mem_cons.mp hx with rfl | hx
        · exact ⟨List.mem_cons_self _ _, ha⟩
        · obtain ⟨h1, h2⟩ := (ih _).mp hx
          refine ⟨List.mem_cons_of_mem a h1, fun hs => h2 ?_⟩
          exact List.mem_cons_of_mem a hs
      · rintro ⟨hx, hs⟩
        rcases List.mem_cons.mp hx with rfl | hx
        · exact List.mem_cons_self _ _
        · by_cases hxa : x = a
          · subst hxa
            exact List.mem_cons_self _ _
          · exact List.mem_cons_of_mem a
              ((ih _).mpr ⟨hx, by simp [List.mem_cons, hxa, hs]⟩)

theorem mem_firstDedup {α : Type} [DecidableEq α] (l : List α) (x : α) :
    x ∈ firstDedup l ↔ x ∈ l := by
  simp [firstDedup, mem_firstDedupAux]

theorem firstDedup_ne_nil {α : Type} [DecidableEq α] (l : List α) (h : l ≠ []) :
    firstDedup l ≠ [] := by
  cases l with
  | nil => exact absurd rfl h
  | cons a t => simp [firstDedup, firstDedupAux]

theorem pyMaxByGo_spec {α : Type} (f : α → ℚ) (b : α) (l : List α) :
    pyMaxByGo f b l ∈ b :: l ∧ f b ≤ f (pyMaxByGo f b l) ∧
      ∀ y ∈ l, f y ≤ f (pyMaxByGo f b l) := by
  induction l generalizing b with
  | nil => exact ⟨List.mem_cons_self _ _, le_refl _, by simp⟩
  | cons y t ih =>
    obtain ⟨hmem, hle, hall⟩ := ih (if f b < f y then y else b)
    have hb2 : (if f b < f y then y else b) ∈ b :: y :: t := by
      by_cases hc : f b < f y <;> simp [hc]
    have hble : f b ≤ f (if f b < f y then y else b) := by
      by_cases hc : f b < f y
      · rw [if_pos hc]
        exact le_of_lt hc
      · rw [if_neg hc]
    have hyle : f y ≤ f (if f b < f y then y else b) := by
      by_cases hc : f b < f y
      · rw [if_pos hc]
      · rw [if_neg hc]
        exact le_of_not_lt hc
    rw [pyMaxByGo]
    refine ⟨?_, le_trans hble hle, ?_⟩
    · rcases List.mem_cons.mp hmem with he | hm2
      · rw [he]
        exact hb2
      · exact List.mem_cons_of_mem _ (List.mem_cons_of_mem _ hm2)
    · intro z hz
      rcases List.mem_cons.mp hz with rfl | hz
      · exact le_trans hyle hle
      · exact hall z hz

theorem pyMaxBy_spec {α : Type} (f : α → ℚ) (l : List α) (x : α)
    (h : pyMaxBy f l = some x) : x ∈ l ∧ ∀ y ∈ l, f y ≤ f x := by
  cases l with
  | nil => simp [pyMaxBy] at h
  | cons a t =>
    rw [pyMaxBy, Option.some.injEq] at h
    subst h
    obtain ⟨hmem, hle, hall⟩ := pyMaxByGo_spec f a t
    refine ⟨hmem, ?_⟩
    intro y hy
    rcases List.mem_cons.mp hy with rfl | hy
    · exact hle
    · exact hall y hy

theorem alLookup_updInc (d : List (Int × Nat)) (k m : Int) :
    alLookup m (updInc d k) =
      if m = k then some ((alLookup m d).getD 0 + 1) else alLookup m d := by
  induction d with
  | nil => by_cases h : m = k <;> simp [updInc, alLookup, h]
  | cons p rest ih =>
    obtain ⟨k2, v⟩ := p
    by_cases h1 : k = k2
    · subst h1
      by_cases h2 : m = k <;> simp [updInc, alLookup, h2]
    · by_cases h2 : m = k2
      · subst h2
        have hmk : ¬ (m = k) := fun he => h1 he.symm
        simp [updInc, alLookup, h1, hmk]
      · simp [updInc, alLookup, h1, h2, ih]

theorem alLookup_foldl (ms : List Int) (acc : List (Int × Nat)) (m : Int) :
    alLookup m (List.foldl updInc acc ms) =
      if ms.count m = 0 then alLookup m acc
      else some ((alLookup m acc).getD 0 + ms.count m) := by
  induction ms generalizing acc with
  | nil => simp
  | cons k t ih =>
    rw [List.foldl_cons, ih (updInc acc k), List.count_cons, alLookup_updInc]
    by_cases hmk : m = k
    · subst hmk
      simp only [beq_self_eq_true, if_true, if_pos rfl]
      have hne : ¬ (t.count m + 1 = 0) := by omega
      rw [if_neg hne]
      by_cases hct : t.count m = 0
      · rw [if_pos hct, hct]
      · rw [if_neg hct]
        simp only [Option.getD_some, Option.some.injEq]
        omega
    · have hbeq : (k == m) = false := by
        simp only [beq_eq_false_iff_ne, ne_eq]
        exact fun he => hmk he.symm
      simp only [hbeq, Bool.false_eq_true, if_false, Nat.add_zero, if_neg hmk]

theorem alLookup_markDist (ms : List Int) (m : Int) :
    alLookup m (List.foldl updInc [] ms) =
      if ms.count m = 0 then none else some (ms.count m) := by
  rw [alLookup_foldl]
  by_cases h : ms.count m = 0 <;> simp [h, alLookup]

theorem npMean_202224 : npMean [20, 22, 24] = 22 := by
  have h1 : List.sum ([20, 22, 24] : List Int) = 66 := by decide
  have h2 : List.length ([20, 22, 24] : List Int) = 3 := rfl
  rw [npMean, h1, h2]
  norm_num

theorem formatQ2_22 : formatQ2 22 = "22.00".toList := by
  have h0 : ¬ ((22 : ℚ) < 0) := by norm_num
  have h1 : (22 : ℚ) * 100 = 2200 := by norm_num
  have hf : ⌊(2200 : ℚ)⌋ = 2200 := by norm_num
  have h2 : rhe (2200 : ℚ) = 2200 := by
    rw [rhe, hf]
    norm_num
  unfold formatQ2
  rw [if_neg h0, if_neg h0, h1, h2]
  decide

theorem find_table_cons_pos (t : List Char) (h : List Record → Except (List Char) Answer)
    (rest : List (List Char × (List Record → Except (List Char) Answer))) (q : List Char)
    (hc : containsSub t (pyLower q) = true) :
    List.find? (fun p => containsSub p.1 (pyLower q)) ((t, h) :: rest) = some (t, h) :=
  List.find?_cons_of_pos _ (by simpa using hc)

theorem find_table_cons_neg (t : List Char) (h : List Record → Except (List Char) Answer)
    (rest : List (List Char × (List Record → Except (List Char) Answer))) (q : List Char)
    (hc : ¬ containsSub t (pyLower q) = true) :
    List.find? (fun p => containsSub p.1 (pyLower q)) ((t, h) :: rest) =
      List.find? (fun p => containsSub p.1 (pyLower q)) rest :=
  List.find?_cons_of_neg _ (by simpa using hc)

theorem answer_eq_dispatchFirst (q : List Char) (records : List Record) :
    answer_question q records = dispatchFirst q records := by
  unfold answer_question dispatchFirst triggerTable
  by_cases h1 : containsSub trigAvgAge (pyLower q) = true
  · rw [if_pos h1, find_table_cons_pos _ _ _ _ h1]
  · rw [if_neg h1, find_table_cons_neg _ _ _ _ h1]
    by_cases h2 : containsSub trigHighestMarks (pyLower q) = true
    · rw [if_pos h2, find_table_cons_pos _ _ _ _ h2]
    · rw [if_neg h2, find_table_cons_neg _ _ _ _ h2]
      by_cases h3 : containsSub trigCsCount (pyLower q) = true
      · rw [if_pos h3, find_table_cons_pos _ _ _ _ h3]
      · rw [if_neg h3, find_table_cons_neg _ _ _ _ h3]
        by_cases h4 : containsSub trigCommonHobbies (pyLower q) = true
        · rw [if_pos h4, find_table_cons_pos _ _ _ _ h4]
        · rw [if_neg h4, find_table_cons_neg _ _ _ _ h4]
          by_cases h5 : containsSub trigMarkDistribution (pyLower q) = true
          · rw [if_pos h5, find_table_cons_pos _ _ _ _ h5]
          · rw [if_neg h5, find_table_cons_neg _ _ _ _ h5]
            by_cases h6 : containsSub trigHighestAvgMarks (pyLower q) = true
            · rw [if_pos h6, find_table_cons_pos _ _ _ _ h6]
            · rw [if_neg h6, find_table_cons_neg _ _ _ _ h6]
              by_cases h7 : containsSub trigAllNames (pyLower q) = true
              · rw [if_pos h7, find_table_cons_pos _ _ _ _ h7]
              · rw [if_neg h7, find_table_cons_neg _ _ _ _ h7]
                by_cases h8 : containsSub trigAllAges (pyLower q) = true
                · rw [if_pos h8, find_table_cons_pos _ _ _ _ h8]
                · rw [if_neg h8, find_table_cons_neg _ _ _ _ h8]
                  by_cases h9 : containsSub trigAllHobbies (pyLower q) = true
                  · rw [if_pos h9, find_table_cons_pos _ _ _ _ h9]
                  · rw [if_neg h9, find_table_cons_neg _ _ _ _ h9]
                    by_cases h10 : containsSub trigAllDepartments (pyLower q) = true
                    · rw [if_pos h10, find_table_cons_pos _ _ _ _ h10]
                    · rw [if_neg h10, find_table_cons_neg _ _ _ _ h10]
                      by_cases h11 : containsSub trigAllSports (pyLower q) = true
                      · rw [if_pos h11, find_table_cons_pos _ _ _ _ h11]
                      · rw [if_neg h11, find_table_cons_neg _ _ _ _ h11]
                        rfl

/-! ### Claims -/

/-- C1 counterexample: the claim "if either marker is missing the hobby list
is empty" fails on text that contains `**Hobbies:**` but no `**Sport:**`
marker — the source only catches the `IndexError` of the `**Hobbies:**`
split; `split("**Sport:**")[0]` cannot fail, so the section simply runs to
the end of the input and yields a non-empty hobby list. -/
theorem claim_C1_counterexample :
    containsSub sportMarker "**Hobbies:**\n* reading\n".toList = false ∧
      (extract_student_info "**Hobbies:**\n* reading\n".toList).hobbies =
        "reading".toList ∧
      (extract_student_info "**Hobbies:**\n* reading\n".toList).hobbies ≠ [] :=
  ⟨by decide, by decide, by decide⟩

/-- C1 (amended): only a missing `**Hobbies:**` marker forces the hobby list
to be empty; a missing `**Sport:**` marker alone does not. -/
theorem claim_C1_amended_hobbies_empty (text : List Char)
    (h : containsSub hobbiesMarker text = false) :
    (extract_student_info text).hobbies = [] := by
  rw [extract_hobbies_eq, hobbiesVal_no_marker text h]
  rfl

/-- Witness for C1 (amended) at a concrete marker-free text. -/
theorem claim_C1_witness :
    containsSub hobbiesMarker "**Name:** Bob".toList = false ∧
      (extract_student_info "**Name:** Bob".toList).hobbies = [] :=
  ⟨by decide, claim_C1_amended_hobbies_empty _ (by decide)⟩

/-- C2: `answer_question` matches the lowercased question against the fixed
ordered trigger table, the first trigger whose substring occurs wins, and
when no trigger substring occurs it returns the fixed sentinel sentence
regardless of the records. -/
theorem claim_C2_dispatch (q : List Char) (records : List Record) :
    answer_question q records = dispatchFirst q records ∧
      ((∀ t ∈ triggerStrings, containsSub t (pyLower q) = false) →
        answer_question q records = Except.ok (Answer.sentence notUnderstood)) := by
  refine ⟨answer_eq_dispatchFirst q records, fun hall => ?_⟩
  rw [answer_eq_dispatchFirst q records]
  unfold dispatchFirst
  have hnone : triggerTable.find? (fun p => containsSub p.1 (pyLower q)) = none := by
    rw [List.find?_eq_none]
    intro p hp
    have := hall p.1 (List.mem_map_of_mem Prod.fst hp)
    simp [this]
  rw [hnone]

/-- Witness for C2: an unrelated question with non-empty records yields the
sentinel. -/
theorem claim_C2_witness :
    answer_question "xyz unrelated question".toList
        [{ id := 1, name := "A".toList, age := 20, marks := 70,
           department := "CS".toList, hobby := [], sport := [] }] =
      Except.ok (Answer.sentence notUnderstood) :=
  (claim_C2_dispatch "xyz unrelated question".toList
    [{ id := 1, name := "A".toList, age := 20, marks := 70,
       department := "CS".toList, hobby := [], sport := [] }]).2 (by decide)

/-- C3: extraction never raises — `extractE`, in which the two `int(...)`
calls (the only fallible statements outside a `try`) are explicit, always
returns `ok`; and when the `name` / `department` patterns have no match the
documented `"Unknown"` defaults are produced. -/
theorem claim_C3_total_extraction (text : List Char) :
    (∃ info, extractE text = Except.ok info) ∧
      (reSearchCap nameLit notNl text = none →
        (extract_student_info text).name = "Unknown".toList) ∧
      (reSearchCap deptLit notNl text = none →
        (extract_student_info text).department = "Unknown".toList) := by
  refine ⟨⟨extract_student_info text, extractE_ok text⟩, fun hn => ?_, fun hd => ?_⟩
  · rw [extract_name_eq]
    simp [nameVal, extract_field, hn]
  · rw [extract_dept_eq]
    simp [deptVal, extract_field, hd]

/-- Witness for C3 at a concrete field-free text. -/
theorem claim_C3_witness :
    (∃ info, extractE "hello".toList = Except.ok info) ∧
      (extract_student_info "hello".toList).name = "Unknown".toList ∧
      (extract_student_info "hello".toList).department = "Unknown".toList :=
  ⟨(claim_C3_total_extraction "hello".toList).1,
    (claim_C3_total_extraction "hello".toList).2.1 (by decide),
    (claim_C3_total_extraction "hello".toList).2.2 (by decide)⟩

/-- C4: if the `**Age:**` (resp. `**Marks:**`) pattern has no match in the
text, or the captured value would not parse as an integer (which the digit
pattern in fact rules out), the extracted `age` (resp. `marks`) is `0`. -/
theorem claim_C4_age_marks_default (text : List Char) :
    ((reSearchCap ageLit Char.isDigit text = none ∨
        ∃ cap, reSearchCap ageLit Char.isDigit text = some cap ∧
          pyInt (pyStripWs cap) = none) →
      (extract_student_info text).age = 0) ∧
    ((reSearchCap marksLit Char.isDigit text = none ∨
        ∃ cap, reSearchCap marksLit Char.isDigit text = some cap ∧
          pyInt (pyStripWs cap) = none) →
      (extract_student_info text).marks = 0) := by
  constructor
  · rintro (h | ⟨cap, hcap, hnone⟩)
    · apply extract_age_of
      simp only [ageTxt, extract_field, h]
      decide
    · exfalso
      obtain ⟨n, hn⟩ := digitsField_int ageLit text
      rw [show extract_field ageLit Char.isDigit "0".toList text = pyStripWs cap by
        simp [extract_field, hcap]] at hn
      rw [hnone] at hn
      exact Option.noConfusion hn
  · rintro (h | ⟨cap, hcap, hnone⟩)
    · apply extract_marks_of
      simp only [marksTxt, extract_field, h]
      decide
    · exfalso
      obtain ⟨n, hn⟩ := digitsField_int marksLit text
      rw [show extract_field marksLit Char.isDigit "0".toList text = pyStripWs cap by
        simp [extract_field, hcap]] at hn
      rw [hnone] at hn
      exact Option.noConfusion hn

/-- Witness for C4 at a text with no `**Age:**` and no `**Marks:**` line. -/
theorem claim_C4_witness :
    (extract_student_info "**Name:** Bob".toList).age = 0 ∧
      (extract_student_info "**Name:** Bob".toList).marks = 0 :=
  ⟨(claim_C4_age_marks_default "**Name:** Bob".toList).1 (Or.inl (by decide)),
    (claim_C4_age_marks_default "**Name:** Bob".toList).2 (Or.inl (by decide))⟩

/-- C5: on a question containing "average age" (the first trigger) with
non-empty records, the answer is a sentence embedding the mean of the ages
formatted to two decimal places; with ages `[20, 22, 24]` the sentence
contains `"22.00"`.  (The float mean is modelled in exact rational
arithmetic, see `npMean`.) -/
theorem claim_C5_average_age :
    (∀ (q : List Char) (records : List Record), records ≠ [] →
      containsSub trigAvgAge (pyLower q) = true →
      ∃ s, answer_question q records = Except.ok (Answer.sentence s) ∧
        containsSub (formatQ2 (npMean (records.map Record.age))) s = true) ∧
    (∃ s, answer_question "What is the average age?".toList
        [{ id := 1, name := "A".toList, age := 20, marks := 70,
           department := "CS".toList, hobby := [], sport := [] },
         { id := 2, name := "B".toList, age := 22, marks := 80,
           department := "CS".toList, hobby := [], sport := [] },
         { id := 3, name := "C".toList, age := 24, marks := 90,
           department := "EE".toList, hobby := [], sport := [] }] =
        Except.ok (Answer.sentence s) ∧
      containsSub "22.00".toList s = true) := by
  have hmain : ∀ (q : List Char) (records : List Record), records ≠ [] →
      containsSub trigAvgAge (pyLower q) = true →
      ∃ s, answer_question q records = Except.ok (Answer.sentence s) ∧
        containsSub (formatQ2 (npMean (records.map Record.age))) s = true := by
    intro q records hne htrig
    unfold answer_question
    rw [if_pos htrig]
    unfold hAvgAge
    refine ⟨_, rfl, ?_⟩
    have hlen : (records.map Record.age).isEmpty = false := by
      cases records with
      | nil => exact absurd rfl hne
      | cons r t => rfl
    rw [npMeanFmt, if_neg (by simp [hlen])]
    exact containsSub_append_middle _ _ _
  refine ⟨hmain, ?_⟩
  obtain ⟨s, hs, hc⟩ := hmain "What is the average age?".toList
    [{ id := 1, name := "A".toList, age := 20, marks := 70,
       department := "CS".toList, hobby := [], sport := [] },
     { id := 2, name := "B".toList, age := 22, marks := 80,
       department := "CS".toList, hobby := [], sport := [] },
     { id := 3, name := "C".toList, age := 24, marks := 90,
       department := "EE".toList, hobby := [], sport := [] }]
    (by simp) (by decide)
  refine ⟨s, hs, ?_⟩
  rw [show List.map Record.age
      [{ id := 1, name := "A".toList, age := 20, marks := 70,
         department := "CS".toList, hobby := [], sport := [] },
       { id := 2, name := "B".toList, age := 22, marks := 80,
         department := "CS".toList, hobby := [], sport := [] },
       { id := 3, name := "C".toList, age := 24, marks := 90,
         department := "EE".toList, hobby := [], sport := [] }] = [20, 22, 24] from rfl,
    npMean_202224, formatQ2_22] at hc
  exact hc

/-- Witness for C5: the universally quantified part applied at the concrete
question and records of the claim. -/
theorem claim_C5_witness :
    ∃ s, answer_question "What is the average age?".toList
        [{ id := 1, name := "A".toList, age := 20, marks := 70,
           department := "CS".toList, hobby := [], sport := [] },
         { id := 2, name := "B".toList, age := 22, marks := 80,
           department := "CS".toList, hobby := [], sport := [] },
         { id := 3, name := "C".toList, age := 24, marks := 90,
           department := "EE".toList, hobby := [], sport := [] }] =
        Except.ok (Answer.sentence s) ∧
      containsSub (formatQ2 (npMean
        (List.map Record.age
          [{ id := 1, name := "A".toList, age := 20, marks := 70,
             department := "CS".toList, hobby := [], sport := [] },
           { id := 2, name := "B".toList, age := 22, marks := 80,
             department := "CS".toList, hobby := [], sport := [] },
           { id := 3, name := "C".toList, age := 24, marks := 90,
             department := "EE".toList, hobby := [], sport := [] }]))) s = true :=
  claim_C5_average_age.1 "What is the average age?".toList
    [{ id := 1, name := "A".toList, age := 20, marks := 70,
       department := "CS".toList, hobby := [], sport := [] },
     { id := 2, name := "B".toList, age := 22, marks := 80,
       department := "CS".toList, hobby := [], sport := [] },
     { id := 3, name := "C".toList, age := 24, marks := 90,
       department := "EE".toList, hobby := [], sport := [] }] (by simp) (by decide)

/-- C6: on a question containing "distribution of marks" and none of the
four earlier triggers, the answer is the insertion-ordered frequency mapping
built by the dict loop, and looking up any marks value in it yields the
number of records with that value (absent iff the count is zero); with marks
`[70, 70, 85]` the mapping is `{70: 2, 85: 1}`. -/
theorem claim_C6_mark_distribution :
    (∀ (q : List Char) (records : List Record),
      containsSub trigAvgAge (pyLower q) = false →
      containsSub trigHighestMarks (pyLower q) = false →
      containsSub trigCsCount (pyLower q) = false →
      containsSub trigCommonHobbies (pyLower q) = false →
      containsSub trigMarkDistribution (pyLower q) = true →
      answer_question q records =
        Except.ok (Answer.mapping (List.foldl updInc [] (records.map Record.marks))) ∧
      ∀ m : Int, alLookup m (List.foldl updInc [] (records.map Record.marks)) =
        if (records.map Record.marks).count m = 0 then none
        else some ((records.map Record.marks).count m)) ∧
    answer_question "distribution of marks".toList
        [{ id := 1, name := "A".toList, age := 20, marks := 70,
           department := "CS".toList, hobby := [], sport := [] },
         { id := 2, name := "B".toList, age := 22, marks := 70,
           department := "CS".toList, hobby := [], sport := [] },
         { id := 3, name := "C".toList, age := 24, marks := 85,
           department := "EE".toList, hobby := [], sport := [] }] =
      Except.ok (Answer.mapping [(70, 2), (85, 1)]) := by
  constructor
  · intro q records h1 h2 h3 h4 h5
    unfold answer_question
    rw [if_neg (by simp [h1]), if_neg (by simp [h2]), if_neg (by simp [h3]),
      if_neg (by simp [h4]), if_pos h5]
    exact ⟨rfl, fun m => alLookup_markDist _ m⟩
  · decide

/-- Witness for C6: the universally quantified part applied at the concrete
question and records of the claim. -/
theorem claim_C6_witness :
    answer_question "distribution of marks".toList
        [{ id := 1, name := "A".toList, age := 20, marks := 70,
           department := "CS".toList, hobby := [], sport := [] },
         { id := 2, name := "B".toList, age := 22, marks := 70,
           department := "CS".toList, hobby := [], sport := [] },
         { id := 3, name := "C".toList, age := 24, marks := 85,
           department := "EE".toList, hobby := [], sport := [] }] =
      Except.ok (Answer.mapping (List.foldl updInc []
        (List.map Record.marks
          [{ id := 1, name := "A".toList, age := 20, marks := 70,
             department := "CS".toList, hobby := [], sport := [] },
           { id := 2, name := "B".toList, age := 22, marks := 70,
             department := "CS".toList, hobby := [], sport := [] },
           { id := 3, name := "C".toList, age := 24, marks := 85,
             department := "EE".toList, hobby := [], sport := [] }]))) :=
  (claim_C6_mark_distribution.1 "distribution of marks".toList
    [{ id := 1, name := "A".toList, age := 20, marks := 70,
       department := "CS".toList, hobby := [], sport := [] },
     { id := 2, name := "B".toList, age := 22, marks := 70,
       department := "CS".toList, hobby := [], sport := [] },
     { id := 3, name := "C".toList, age := 24, marks := 85,
       department := "EE".toList, hobby := [], sport := [] }]
    (by decide) (by decide) (by decide) (by decide) (by decide)).1

/-- C7: on a question containing "highest average marks" and no earlier
trigger, with non-empty records, the answer names a department drawn from
the set of department values whose mean marks over its member records is
maximal among all departments.  (`set` iteration order is modelled as
first-occurrence order; the stated property is order independent.) -/
theorem claim_C7_highest_avg_department (q : List Char) (records : List Record)
    (hne : records ≠ [])
    (h1 : containsSub trigAvgAge (pyLower q) = false)
    (h2 : containsSub trigHighestMarks (pyLower q) = false)
    (h3 : containsSub trigCsCount (pyLower q) = false)
    (h4 : containsSub trigCommonHobbies (pyLower q) = false)
    (h5 : containsSub trigMarkDistribution (pyLower q) = false)
    (h6 : containsSub trigHighestAvgMarks (pyLower q) = true) :
    ∃ d, answer_question q records =
        Except.ok (Answer.sentence
          ("The department with the highest average marks is ".toList ++ d ++ ['.'])) ∧
      d ∈ records.map Record.department ∧
      ∀ d2 ∈ records.map Record.department,
        npMean (deptMarks d2 records) ≤ npMean (deptMarks d records) := by
  have hmap : records.map Record.department ≠ [] := by
    cases records with
    | nil => exact absurd rfl hne
    | cons r t => simp
  have hdne := firstDedup_ne_nil _ hmap
  cases hm : pyMaxBy (fun d => npMean (deptMarks d records))
      (firstDedup (records.map Record.department)) with
  | none =>
    exfalso
    cases hfd : firstDedup (records.map Record.department) with
    | nil => exact hdne hfd
    | cons d0 t =>
      rw [hfd] at hm
      simp [pyMaxBy] at hm
  | some d =>
    obtain ⟨hdmem, hall⟩ := pyMaxBy_spec _ _ _ hm
    refine ⟨d, ?_, (mem_firstDedup _ _).mp hdmem,
      fun d2 hd2 => hall d2 ((mem_firstDedup _ _).mpr hd2)⟩
    unfold answer_question
    rw [if_neg (by simp [h1]), if_neg (by simp [h2]), if_neg (by simp [h3]),
      if_neg (by simp [h4]), if_neg (by simp [h5]), if_pos h6]
    unfold hHighestAvgMarks
    rw [hm]

/-- Witness for C7 at a concrete question and two-department record set. -/
theorem claim_C7_witness :
    ∃ d, answer_question "Which department has the highest average marks?".toList
        [{ id := 1, name := "A".toList, age := 20, marks := 90,
           department := "CS".toList, hobby := [], sport := [] },
         { id := 2, name := "B".toList, age := 22, marks := 80,
           department := "EE".toList, hobby := [], sport := [] }] =
        Except.ok (Answer.sentence
          ("The department with the highest average marks is ".toList ++ d ++ ['.'])) ∧
      d ∈ List.map Record.department
        [{ id := 1, name := "A".toList, age := 20, marks := 90,
           department := "CS".toList, hobby := [], sport := [] },
         { id := 2, name := "B".toList, age := 22, marks := 80,
           department := "EE".toList, hobby := [], sport := [] }] ∧
      ∀ d2 ∈ List.map Record.department
        [{ id := 1, name := "A".toList, age := 20, marks := 90,
           department := "CS".toList, hobby := [], sport := [] },
         { id := 2, name := "B".toList, age := 22, marks := 80,
           department := "EE".toList, hobby := [], sport := [] }],
        npMean (deptMarks d2
          [{ id := 1, name := "A".toList, age := 20, marks := 90,
             department := "CS".toList, hobby := [], sport := [] },
           { id := 2, name := "B".toList, age := 22, marks := 80,
             department := "EE".toList, hobby := [], sport := [] }]) ≤
        npMean (deptMarks d
          [{ id := 1, name := "A".toList, age := 20, marks := 90,
             department := "CS".toList, hobby := [], sport := [] },
           { id := 2, name := "B".toList, age := 22, marks := 80,
             department := "EE".toList, hobby := [], sport := [] }]) :=
  claim_C7_highest_avg_department
    "Which department has the highest average marks?".toList
    [{ id := 1, name := "A".toList, age := 20, marks := 90,
       department := "CS".toList, hobby := [], sport := [] },
     { id := 2, name := "B".toList, age := 22, marks := 80,
       department := "EE".toList, hobby := [], sport := [] }]
    (by simp) (by decide) (by decide) (by decide) (by decide) (by decide) (by decide)

/-- C9: `answer_question` never mutates the record list: in state-passing
form the returned record list is exactly the input list, alongside the same
answer. -/
theorem claim_C9_no_mutation (q : List Char) (records : List Record) :
    answer_question_run q records = (answer_question q records, records) := by
  unfold answer_question_run answer_question
  by_cases h1 : containsSub trigAvgAge (pyLower q) = true
  · rw [if_pos h1, if_pos h1]
  · rw [if_neg h1, if_neg h1]
    by_cases h2 : containsSub trigHighestMarks (pyLower q) = true
    · rw [if_pos h2, if_pos h2]
    · rw [if_neg h2, if_neg h2]
      by_cases h3 : containsSub trigCsCount (pyLower q) = true
      · rw [if_pos h3, if_pos h3]
      · rw [if_neg h3, if_neg h3]
        by_cases h4 : containsSub trigCommonHobbies (pyLower q) = true
        · rw [if_pos h4, if_pos h4]
        · rw [if_neg h4, if_neg h4]
          by_cases h5 : containsSub trigMarkDistribution (pyLower q) = true
          · rw [if_pos h5, if_pos h5]
          · rw [if_neg h5, if_neg h5]
            by_cases h6 : containsSub trigHighestAvgMarks (pyLower q) = true
            · rw [if_pos h6, if_pos h6]
            · rw [if_neg h6, if_neg h6]
              by_cases h7 : containsSub trigAllNames (pyLower q) = true
              · rw [if_pos h7, if_pos h7]
              · rw [if_neg h7, if_neg h7]
                by_cases h8 : containsSub trigAllAges (pyLower q) = true
                · rw [if_pos h8, if_pos h8]
                · rw [if_neg h8, if_neg h8]
                  by_cases h9 : containsSub trigAllHobbies (pyLower q) = true
                  · rw [if_pos h9, if_pos h9]
                  · rw [if_neg h9, if_neg h9]
                    by_cases h10 : containsSub trigAllDepartments (pyLower q) = true
                    · rw [if_pos h10, if_pos h10]
                    · rw [if_neg h10, if_neg h10]
                      by_cases h11 : containsSub trigAllSports (pyLower q) = true
                      · rw [if_pos h11, if_pos h11]
                      · rw [if_neg h11, if_neg h11]

/-- C8 counterexample: the source strips `*` and space characters first and
only then whitespace, which is not the same as stripping `*` characters and
whitespace from both ends: on the line `"\t* swimming"` the source leaves
`"* swimming"` (the tab shields the bullet from `strip("* ")`), while the
claimed rule yields `"swimming"`; the same shows through a full extraction. -/
theorem claim_C8_counterexample :
    bulletStrip "\t* swimming".toList = "* swimming".toList ∧
      pyStrip starOrWs "\t* swimming".toList = "swimming".toList ∧
      bulletStrip "\t* swimming".toList ≠ pyStrip starOrWs "\t* swimming".toList ∧
      (extract_student_info
          "**Hobbies:**\n\t* swimming\n**Sport:**\n* football".toList).hobbies =
        "* swimming".toList :=
  ⟨by decide, by decide, by decide, by decide⟩

/-- C8 (amended): each section line is stripped of `*` and space characters
from both ends and then of whitespace from both ends; on any line whose
whitespace characters are all plain spaces this coincides with stripping `*`
characters and whitespace from both ends, as the claim words it — in
particular `"* swimming *"` extracts to `"swimming"`. -/
theorem claim_C8_amended_bullet_strip (line : List Char)
    (h : ∀ c ∈ line, isPyWs c = true → c = ' ') :
    bulletStrip line = pyStrip starOrWs line := by
  have hcongr : pyStrip isStarSpace line = pyStrip starOrWs line := by
    apply pyStrip_congr_mem
    intro c hc
    cases hw : isPyWs c with
    | true =>
      have hsp := h c hc hw
      subst hsp
      decide
    | false =>
      have hsp : (c == ' ') = false := by
        cases hs : c == ' ' with
        | false => rfl
        | true =>
          rw [beq_iff_eq] at hs
          subst hs
          exact absurd hw (by decide)
      simp [isStarSpace, starOrWs, hsp, hw]
  unfold bulletStrip
  rw [hcongr]
  exact pyStripWs_pyStrip starOrWs (fun c hc => by simp [starOrWs, hc]) line

/-- Witness for C8 (amended) at the claim's line `"* swimming *"`. -/
theorem claim_C8_witness :
    (∀ c ∈ "* swimming *".toList, isPyWs c = true → c = ' ') ∧
      bulletStrip "* swimming *".toList = pyStrip starOrWs "* swimming *".toList ∧
      bulletStrip "* swimming *".toList = "swimming".toList :=
  ⟨by decide, claim_C8_amended_bullet_strip "* swimming *".toList (by decide), by decide⟩

/-- C10: a record whose stored hobby string is empty contributes the empty
token: splitting `""` on commas yields `[""]`, so `""` occurs among the
hobby tokens, in the list returned for "all student hobbies", and among the
candidates of the "common hobbies" mode computation. -/
theorem claim_C10_empty_hobby_token (records : List Record) (rec : Record)
    (hmem : rec ∈ records) (hh : rec.hobby = []) :
    pySplit [','] rec.hobby = [[]] ∧
      ([] : List Char) ∈ allHobbyTokens records ∧
      (∃ L, answer_question "all student hobbies".toList records =
          Except.ok (Answer.strList L) ∧ ([] : List Char) ∈ L) ∧
      ([] : List Char) ∈ commonHobbyCandidates records := by
  have hsplit : pySplit [','] rec.hobby = [[]] := by
    rw [hh]
    rfl
  have htok : ([] : List Char) ∈ allHobbyTokens records := by
    unfold allHobbyTokens
    rw [List.mem_flatMap]
    refine ⟨rec, hmem, ?_⟩
    rw [show (pySplit [','] rec.hobby).map pyStripWs = [[]] by rw [hsplit]; rfl]
    exact List.mem_singleton_self _
  refine ⟨hsplit, htok, ?_, (mem_firstDedup _ _).mpr htok⟩
  unfold answer_question
  rw [if_neg (by decide), if_neg (by decide), if_neg (by decide), if_neg (by decide),
    if_neg (by decide), if_neg (by decide), if_neg (by decide), if_neg (by decide),
    if_pos (by decide)]
  exact ⟨firstDedup (allHobbyTokens records), rfl, (mem_firstDedup _ _).mpr htok⟩

/-- Witness for C10 at a one-record list whose hobby string is empty. -/
theorem claim_C10_witness :
    pySplit [','] ([] : List Char) = [[]] ∧
      ([] : List Char) ∈ allHobbyTokens
        [{ id := 1, name := "A".toList, age := 20, marks := 70,
           department := "CS".toList, hobby := [], sport := [] }] ∧
      (∃ L, answer_question "all student hobbies".toList
          [{ id := 1, name := "A".toList, age := 20, marks := 70,
             department := "CS".toList, hobby := [], sport := [] }] =
          Except.ok (Answer.strList L) ∧ ([] : List Char) ∈ L) ∧
      ([] : List Char) ∈ commonHobbyCandidates
        [{ id := 1, name := "A".toList, age := 20, marks := 70,
           department := "CS".toList, hobby := [], sport := [] }] :=
  claim_C10_empty_hobby_token
    [{ id := 1, name := "A".toList, age := 20, marks := 70,
       department := "CS".toList, hobby := [], sport := [] }]
    { id := 1, name := "A".toList, age := 20, marks := 70,
      department := "CS".toList, hobby := [], sport := [] }
    (List.mem_singleton_self _) rfl

end StudentData
